import Mathlib

/-!
Verification development for the ZonKey AI worker (license validation,
device-session management, quota enforcement, JWT issuance/verification,
and Dodo webhook processing).

The database is a Cloudflare D1 (SQLite) instance; rows are modelled as
structures and tables as lists of rows.  Platform primitives that live
outside the repository (crypto.subtle HMAC, SHA-256, JSON.parse of the
webhook body) are passed in as function parameters; everything else is
translated directly from the TypeScript source.  Epoch times are natural
numbers (seconds), as in the source, which uses
Math.floor(Date.now()/1000).
-/

/-- A row of the users table (see the schema and src/types.ts User).
The columns the core reads and writes are modelled; payment_provider is
included because the webhook UPDATE writes it. -/
structure UserRow where
  id : String
  email : String
  license_key : String
  plan : String
  status : String
  created_at : Nat
  expires_at : Nat
  payment_provider : String
  deriving Repr, DecidableEq

/-- A row of the device_sessions table. -/
structure SessionRow where
  id : String
  user_id : String
  license_key : String
  device_fingerprint : String
  device_hash : String
  browser_agent : String
  created_at : Nat
  last_used : Nat
  daily_requests : Nat
  daily_reset_at : Nat
  is_active : Bool
  deriving Repr, DecidableEq

/-- A row of the plan_quotas table (reference data). -/
structure PlanQuotaRow where
  plan : String
  daily_limit : Nat
  monthly_limit : Nat
  credits : Nat
  max_batch_size : Nat
  deriving Repr, DecidableEq

/-- The database state touched by the core operations. -/
structure DB where
  users : List UserRow
  sessions : List SessionRow
  quotas : List PlanQuotaRow
  deriving Repr, DecidableEq

/-- MAX_DEVICES_PER_LICENSE from src/types.ts. -/
def MAX_DEVICES_PER_LICENSE : Nat := 2

/-- Outcome of getOrCreateDeviceSession: either the (possibly
counter-reset) session row, or the DEVICE_LIMIT_REACHED error thrown by
the source, paired with the database after the call. -/
def deviceSessionResult := Except String SessionRow

/-- getOrCreateDeviceSession from src/types.ts.  `sha256` is the
platform hash primitive (crypto.subtle.digest), passed as a parameter;
the source derives the device hash of
clientFingerprint + agent + userId + JWT_SECRET.
The existing-session lookup (user_id, device_hash) happens first; only
when it misses is the active-session count compared against
MAX_DEVICES_PER_LICENSE.  Returns the row the handler sees together
with the new database state. -/
def getOrCreateDeviceSession (sha256 : String → String) (jwtSecret : String)
    (db : DB) (userId licenseKey clientFingerprint agent : String)
    (now today : Nat) (newId : String) :
    Except String SessionRow × DB :=
  let deviceHash := sha256 (clientFingerprint ++ agent ++ userId ++ jwtSecret)
  match db.sessions.find? (fun s => s.user_id = userId ∧ s.device_hash = deviceHash) with
  | some existing =>
    if existing.daily_reset_at < today then
      -- same device, stale counter: reset it, advance the boundary
      (Except.ok { existing with daily_requests := 0 },
       { db with sessions := db.sessions.map (fun s =>
           if s.id = existing.id then
             { s with daily_requests := 0, daily_reset_at := today, last_used := now }
           else s) })
    else
      (Except.ok existing,
       { db with sessions := db.sessions.map (fun s =>
           if s.id = existing.id then { s with last_used := now } else s) })
  | none =>
    let activeCount := (db.sessions.filter (fun s => s.user_id = userId ∧ s.is_active)).length
    if MAX_DEVICES_PER_LICENSE ≤ activeCount then
      (Except.error "DEVICE_LIMIT_REACHED", db)
    else
      let row : SessionRow :=
        { id := newId, user_id := userId, license_key := licenseKey,
          device_fingerprint := clientFingerprint, device_hash := deviceHash,
          browser_agent := agent, created_at := now, last_used := now,
          daily_requests := 0, daily_reset_at := today, is_active := true }
      (Except.ok row, { db with sessions := db.sessions ++ [row] })

/-- incrementDeviceUsage from src/types.ts. -/
def incrementDeviceUsage (db : DB) (sessionId : String) : DB :=
  { db with sessions := db.sessions.map (fun s =>
      if s.id = sessionId then { s with daily_requests := s.daily_requests + 1 } else s) }

/-- The SUM(daily_requests) query of the stats and gated handlers:
total over the user's sessions with daily_reset_at >= today. -/
def dailyUsage (db : DB) (userId : String) (today : Nat) : Nat :=
  ((db.sessions.filter (fun s => s.user_id = userId ∧ today ≤ s.daily_reset_at)).map
    (fun s => s.daily_requests)).sum

/-- The daily limit the gated handlers use: quota?.daily_limit || 10,
so a missing quota row or a zero daily_limit both fall back to 10. -/
def gateDailyLimit (db : DB) (plan : String) : Nat :=
  match db.quotas.find? (fun q => q.plan = plan) with
  | some q => if q.daily_limit = 0 then 10 else q.daily_limit
  | none => 10

/-- Result of the daily-quota admission check in the gated handlers. -/
inductive GateResult where
  | admitted : GateResult
  | quotaExceeded (used limit : Nat) : GateResult
  deriving Repr, DecidableEq

/-- The quota gate of POST /api/ai/generate-keywords (and /api/ai/process):
used >= dailyLimit fails with the 429 "Daily limit exceeded" response
carrying the used/limit pair; otherwise the request is admitted. -/
def quotaGate (db : DB) (userId plan : String) (today : Nat) : GateResult :=
  let used := dailyUsage db userId today
  let dailyLimit := gateDailyLimit db plan
  if dailyLimit ≤ used then GateResult.quotaExceeded used dailyLimit
  else GateResult.admitted

/-- The base64 alphabet used by btoa/atob. -/
def b64AlphaChars : List Char :=
  "ABCDEFGHIJKLMNOPQRSTUVWXYZabcdefghijklmnopqrstuvwxyz0123456789+/".toList

/-- The base64 digit for a 6-bit value. -/
def b64Char (n : Nat) : Char := b64AlphaChars.getD n 'A'

/-- btoa on a byte sequence: standard base64 with '=' padding.
Callers only pass byte values below 256 (real btoa throws above). -/
def base64Encode : List Nat → List Char
  | [] => []
  | [a] => [b64Char (a / 4), b64Char (a % 4 * 16), '=', '=']
  | [a, b] => [b64Char (a / 4), b64Char (a % 4 * 16 + b / 16), b64Char (b % 16 * 4), '=']
  | a :: b :: c :: rest =>
    b64Char (a / 4) :: b64Char (a % 4 * 16 + b / 16) ::
      b64Char (b % 16 * 4 + c / 64) :: b64Char (c % 64) :: base64Encode rest

/-- Index of a character in the base64 alphabet. -/
def b64Val (c : Char) : Option Nat := b64AlphaChars.findIdx? (fun x => x = c)

/-- Decode 4-character base64 groups (with a shorter final group, as the
forgiving decode allows); a leftover single character is an error. -/
def decode4 : List Char → Option (List Nat)
  | [] => some []
  | [_] => none
  | [c1, c2] => do
    let v1 ← b64Val c1
    let v2 ← b64Val c2
    pure [v1 * 4 + v2 / 16]
  | [c1, c2, c3] => do
    let v1 ← b64Val c1
    let v2 ← b64Val c2
    let v3 ← b64Val c3
    pure [v1 * 4 + v2 / 16, v2 % 16 * 16 + v3 / 4]
  | c1 :: c2 :: c3 :: c4 :: rest => do
    let v1 ← b64Val c1
    let v2 ← b64Val c2
    let v3 ← b64Val c3
    let v4 ← b64Val c4
    let tail ← decode4 rest
    pure ((v1 * 4 + v2 / 16) :: (v2 % 16 * 16 + v3 / 4) :: (v3 % 4 * 64 + v4) :: tail)

/-- Remove up to two trailing '=' padding characters. -/
def dropTrailEq2 (s : List Char) : List Char :=
  match s.reverse with
  | '=' :: '=' :: r => r.reverse
  | '=' :: r => r.reverse
  | _ => s

/-- atob: the forgiving base64 decode (padding may be stripped only when
the length is a multiple of four), returning the byte values. -/
def atobDecode (s : List Char) : Option (List Nat) :=
  decode4 (if s.length % 4 = 0 then dropTrailEq2 s else s)

/-- UTF-8 encoding of one character (TextEncoder). -/
def utf8Char (c : Char) : List Nat :=
  let n := c.toNat
  if n < 128 then [n]
  else if n < 2048 then [192 + n / 64, 128 + n % 64]
  else if n < 65536 then [224 + n / 4096, 128 + n / 64 % 64, 128 + n % 64]
  else [240 + n / 262144, 128 + n / 4096 % 64, 128 + n / 64 % 64, 128 + n % 64]

/-- UTF-8 encoding of a character sequence (TextEncoder().encode). -/
def utf8Bytes (s : List Char) : List Nat := (s.map utf8Char).flatten

/-- The code units btoa reads when applied directly to a string. -/
def charCodes (s : List Char) : List Nat := s.map Char.toNat

/-- The string atob builds from decoded bytes (one code unit per byte). -/
def bytesToChars (bs : List Nat) : List Char := bs.map Char.ofNat

/-- The '+' to '-' and '/' to '_' rewriting of generateJWT. -/
def toUrlChar (c : Char) : Char :=
  if c = '+' then '-' else if c = '/' then '_' else c

/-- generateJWT's signature post-processing: base64url characters, '=' removed. -/
def toUrl (s : List Char) : List Char := (s.map toUrlChar).filter (fun c => c ≠ '=')

/-- The '-' to '+' and '_' to '/' rewriting of verifyJWT in utils.ts. -/
def fromUrlChar (c : Char) : Char :=
  if c = '-' then '+' else if c = '_' then '/' else c

/-- Undo the url-safe character rewriting before atob. -/
def fromUrl (s : List Char) : List Char := s.map fromUrlChar

/-- The secret-prefix stripping in webhook verifySignature. -/
def stripWhsec (secret : String) : String :=
  if secret.startsWith "whsec_" then secret.drop 6 else secret

/-- Webhook key material: base64-decode the stripped secret, falling
back to its UTF-8 bytes when decoding fails (src/webhook.ts). -/
def secretKeyBytes (secret : String) : List Nat :=
  match atobDecode (stripWhsec secret).toList with
  | some bs => bs
  | none => utf8Bytes (stripWhsec secret).toList

/-- JavaScript's String.replace with a plain-string pattern removes only
the first occurrence of "v1,". -/
def replaceFirstV1 : List Char → List Char
  | 'v' :: '1' :: ',' :: rest => rest
  | c :: rest => c :: replaceFirstV1 rest
  | [] => []

/-- verifySignature from src/webhook.ts: HMAC-SHA256 (platform primitive
`hmac`, key bytes then message bytes) over "webhookId.timestamp.payload",
base64-encoded and compared against each candidate in the
space-separated, "v1,"-prefixed signature header. -/
def verifySignature (hmac : List Nat → List Nat → List Nat)
    (payload signature timestamp webhookId secret : String) : Bool :=
  let keyData := secretKeyBytes secret
  let signedData := webhookId ++ "." ++ timestamp ++ "." ++ payload
  let expected := base64Encode (hmac keyData (utf8Bytes signedData.toList))
  let signatures := (signature.splitOn " ").map (fun s => replaceFirstV1 s.toList)
  signatures.any (fun s => s = expected)

/-- The parts of the incoming webhook request the handler reads; a
missing header reads as "" (the source applies || ''). -/
structure WebhookReq where
  hasBody : Bool
  webhookId : String
  webhookSig : String
  webhookTs : String
  rawBody : String
  deriving Repr, DecidableEq

/-- The in-process dedup state: the processedWebhooks set. -/
structure WebhookState where
  processed : List String
  deriving Repr, DecidableEq

/-- The synchronous responses handleDodoWebhook can produce. -/
inductive WhResp where
  | noBody400
  | missingHeaders400
  | invalidSig401
  | duplicate200
  | invalidJson400
  | received200 (webhookId : String)
  deriving Repr, DecidableEq

/-- handleDodoWebhook's synchronous path (src/webhook.ts): body/header
guards, signature verification (skipped when the secret is not
configured, i.e. empty), dedup check, marking the id processed, JSON
parsing (JSON.parse modelled by the `jsonParse` parameter), and the
scheduling of the background lifecycle task via ctx.waitUntil, returned
here as the third component. -/
def handleDodoWebhook {α : Type} (hmac : List Nat → List Nat → List Nat)
    (jsonParse : String → Option (String × α))
    (dodoWebhookSecret : String) (st : WebhookState) (req : WebhookReq) :
    WhResp × WebhookState × Option (String × α) :=
  if ¬req.hasBody then (.noBody400, st, none)
  else if req.webhookId = "" ∨ req.webhookSig = "" ∨ req.webhookTs = "" then
    (.missingHeaders400, st, none)
  else if dodoWebhookSecret ≠ "" ∧
      ¬verifySignature hmac req.rawBody req.webhookSig req.webhookTs req.webhookId
        dodoWebhookSecret then
    (.invalidSig401, st, none)
  else if req.webhookId ∈ st.processed then
    (.duplicate200, st, none)
  else
    let st' : WebhookState := { processed := req.webhookId :: st.processed }
    match jsonParse req.rawBody with
    | none => (.invalidJson400, st', none)
    | some td => (.received200 req.webhookId, st', some td)

/-- The worker's product catalog (src/webhook.ts PRODUCTS). -/
structure ProductCfg where
  plan : String
  durationDays : Nat
  name : String
  deriving Repr, DecidableEq

/-- PRODUCTS lookup by product id. -/
def PRODUCTS (productId : String) : Option ProductCfg :=
  if productId = "pdt_0NWZwZB3eia1vz1BCOw6C" then some ⟨"monthly", 30, "Monthly Pro"⟩
  else if productId = "pdt_0NWa2tSwTrvneWU2Yh423" then some ⟨"yearly", 365, "Yearly Pro"⟩
  else if productId = "pdt_0NWZx6IG1WxAoyOv9korR" then some ⟨"lifetime", 36500, "Lifetime Deal"⟩
  else none

/-- The success branch of processWebhookAsync, after the event has been
resolved to an email and a product id: look the product up, then renew
the license of an existing user (expiry arithmetic from the source:
(currentExpiry > now ? currentExpiry : now) + durationSeconds, status
forced to active) or insert a fresh license expiring at
now + durationSeconds. -/
def processSuccessEvent (db : DB) (email productId : String) (now : Nat)
    (newUserId newLicenseKey : String) : DB :=
  match PRODUCTS productId with
  | none => db
  | some productConfig =>
    let durationSeconds := productConfig.durationDays * 86400
    match db.users.find? (fun u => u.email = email) with
    | some existingUser =>
      let currentExpiry := existingUser.expires_at
      let newExpiry := (if now < currentExpiry then currentExpiry else now) + durationSeconds
      { db with users := db.users.map (fun u =>
          if u.id = existingUser.id then
            { u with
              plan := productConfig.plan,
              status := "active",
              expires_at := newExpiry,
              payment_provider := "dodo_webhook" }
          else u) }
    | none =>
      { db with users := db.users ++
          [{ id := newUserId, email := email, license_key := newLicenseKey,
             plan := productConfig.plan, status := "active", created_at := now,
             expires_at := now + durationSeconds, payment_provider := "dodo_webhook" }] }

/-- The failure branch of processWebhookAsync: mark the user expired. -/
def processFailureEvent (db : DB) (email : String) : DB :=
  { db with users := db.users.map (fun u =>
      if u.email = email then { u with status := "expired" } else u) }

/-- The INSERT ... ON CONFLICT(license_key) DO UPDATE of the validate
handler: on a key conflict only plan and expires_at are overwritten. -/
def upsertUser (db : DB) (row : UserRow) : DB :=
  match db.users.find? (fun u => u.license_key = row.license_key) with
  | some existing =>
    { db with users := db.users.map (fun u =>
        if u.id = existing.id then { u with plan := row.plan, expires_at := row.expires_at }
        else u) }
  | none => { db with users := db.users ++ [row] }

/-- The payload of the worker's JWTs. -/
structure JWTPayload where
  sub : String
  plan : String
  iat : Nat
  exp : Nat
  deriving Repr, DecidableEq

/-- The outcome of POST /api/auth/validate: a success response (with the
payload of the freshly minted token) or an error response. -/
inductive AuthResult where
  | ok (payload : JWTPayload) (email plan : String)
  | err (msg : String) (code : Nat)
  deriving Repr, DecidableEq

/-- What the external Dodo license API calls return (out of scope,
passed in). -/
structure DodoInfo where
  ok : Bool
  planType : Option String
  custEmail : Option String
  deriving Repr, DecidableEq

/-- JavaScript x || y for optional strings: empty or missing falls back. -/
def strOrDefault (x : Option String) (dflt : String) : String :=
  match x with
  | some s => if s = "" then dflt else s
  | none => dflt

/-- The default duration table of the validate handler. -/
def planDuration (plan : String) : Nat :=
  if plan = "yearly" then 365 * 86400
  else if plan = "lifetime" then 100 * 365 * 86400
  else 30 * 86400

/-- POST /api/auth/validate (src/types.ts): with a local record, check
status and expiry and mint a token; with none, trust the Dodo
verification outcome, derive plan/email/duration, upsert the row and
mint a token.  `now` is epoch seconds, `nowMs` the Date.now() value
stored in iat. -/
def validateHandler (db : DB) (license_key : String) (now nowMs : Nat)
    (dodo : DodoInfo) (newId : String) : AuthResult × DB :=
  if license_key = "" then (.err "License key required" 400, db)
  else
    match db.users.find? (fun u => u.license_key = license_key) with
    | some localUser =>
      if localUser.status ≠ "active" then (.err "License inactive" 403, db)
      else if localUser.expires_at < now then (.err "License expired" 403, db)
      else
        (.ok { sub := license_key, plan := localUser.plan, iat := nowMs,
               exp := localUser.expires_at }
          localUser.email localUser.plan, db)
    | none =>
      if ¬dodo.ok then (.err "Invalid license" 403, db)
      else
        let plan := strOrDefault dodo.planType "monthly"
        let email := strOrDefault dodo.custEmail ("user_" ++ license_key.take 6 ++ "@zonkey.ai")
        let expires := now + planDuration plan
        let db' := upsertUser db
          { id := newId, email := email, license_key := license_key, plan := plan,
            status := "active", created_at := now, expires_at := expires,
            payment_provider := "" }
        (.ok { sub := license_key, plan := plan, iat := nowMs, exp := expires } email plan, db')

/-- JSON string escaping for one character, as far as the worker needs
it: JSON.stringify escapes '"' and '\' (control characters never occur
in license keys or plan names). -/
def jsonEscapeChar (c : Char) : List Char :=
  if c = '"' then ['\\', '"']
  else if c = '\\' then ['\\', '\\']
  else [c]

/-- JSON string escaping. -/
def jsonEscape (s : List Char) : List Char := (s.map jsonEscapeChar).flatten

/-- Decimal digits of a natural number, most significant first. -/
def natToChars (n : Nat) : List Char :=
  if n < 10 then [Char.ofNat (48 + n)]
  else natToChars (n / 10) ++ [Char.ofNat (48 + n % 10)]
decreasing_by omega

/-- JSON.stringify of the JWT payload object, with the property order of
the object literal in the source: sub, plan, iat, exp. -/
def jsonStringifyPayload (p : JWTPayload) : List Char :=
  "\x7b\"sub\":\"".toList ++ jsonEscape p.sub.toList
    ++ "\",\"plan\":\"".toList ++ jsonEscape p.plan.toList
    ++ "\",\"iat\":".toList ++ natToChars p.iat
    ++ ",\"exp\":".toList ++ natToChars p.exp
    ++ "\x7d".toList

/-- The fixed JWT header object, serialized. -/
def headerJson : List Char := "\x7b\"alg\":\"HS256\",\"typ\":\"JWT\"\x7d".toList

/-- generateJWT from src/utils.ts: header and payload are btoa of the
JSON text (standard base64, padding kept); only the HMAC-SHA256
signature over header.payload is rewritten to base64url and stripped of
padding.  The HMAC key is the UTF-8 secret, the message the UTF-8 of
header.payload. -/
def generateJWT (hmac : List Nat → List Nat → List Nat)
    (payload : JWTPayload) (secret : List Char) : List Char :=
  let header := base64Encode (charCodes headerJson)
  let body := base64Encode (charCodes (jsonStringifyPayload payload))
  let unsigned := header ++ '.' :: body
  let signature := hmac (utf8Bytes secret) (utf8Bytes unsigned)
  let sigBase64 := toUrl (base64Encode signature)
  unsigned ++ '.' :: sigBase64

/-- String.split('.') on a character list. -/
def splitOnDot : List Char → List (List Char)
  | [] => [[]]
  | c :: rest =>
    if c = '.' then [] :: splitOnDot rest
    else
      match splitOnDot rest with
      | [] => [[c]]
      | g :: gs => (c :: g) :: gs

/-- Expect a literal prefix; return the remainder. -/
def parseLit : List Char → List Char → Option (List Char)
  | [], s => some s
  | c :: cs, d :: ds => if d = c then parseLit cs ds else none
  | _ :: _, [] => none

/-- Parse a JSON string body up to its closing quote, undoing the
escapes jsonEscape produces. -/
def parseStringChars : List Char → Option (List Char × List Char)
  | [] => none
  | c :: rest =>
    if c = '"' then some ([], rest)
    else if c = '\\' then
      match rest with
      | [] => none
      | e :: rest2 =>
        if e = '"' ∨ e = '\\' then
          match parseStringChars rest2 with
          | some (s, r) => some (e :: s, r)
          | none => none
        else none
    else
      match parseStringChars rest with
      | some (s, r) => some (c :: s, r)
      | none => none

/-- ASCII decimal digit test. -/
def isDigitCh (c : Char) : Bool := 48 ≤ c.toNat ∧ c.toNat ≤ 57

/-- Accumulate a decimal number over a maximal digit prefix. -/
def parseNatAux (acc : Nat) : List Char → Nat × List Char
  | [] => (acc, [])
  | c :: rest =>
    if isDigitCh c then parseNatAux (acc * 10 + (c.toNat - 48)) rest
    else (acc, c :: rest)

/-- Parse a decimal number (at least one digit). -/
def parseNatChars : List Char → Option (Nat × List Char)
  | [] => none
  | c :: rest => if isDigitCh c then some (parseNatAux 0 (c :: rest)) else none

/-- JSON.parse of the payload text, on the shape generateJWT emits. -/
def jsonParsePayload (s : List Char) : Option JWTPayload := do
  let s1 ← parseLit "\x7b\"sub\":\"".toList s
  let (sub, s2) ← parseStringChars s1
  let s3 ← parseLit ",\"plan\":\"".toList s2
  let (plan, s4) ← parseStringChars s3
  let s5 ← parseLit ",\"iat\":".toList s4
  let (iat, s6) ← parseNatChars s5
  let s7 ← parseLit ",\"exp\":".toList s6
  let (expv, s8) ← parseNatChars s7
  let s9 ← parseLit "\x7d".toList s8
  if s9 = [] then
    pure { sub := String.mk sub, plan := String.mk plan, iat := iat, exp := expv }
  else none

/-- verifyJWT from src/utils.ts: split the token on '.', base64url-decode
the third segment, compare it against the HMAC of header.payload, and on
an exact match return the decoded payload.  The exp field is NOT
consulted.  Any decode failure is the catch-all null. -/
def utils_verifyJWT (hmac : List Nat → List Nat → List Nat)
    (token secret : List Char) : Option JWTPayload :=
  match splitOnDot token with
  | h :: b :: s :: _ =>
    match atobDecode (fromUrl s) with
    | none => none
    | some sig =>
      if sig = hmac (utf8Bytes secret) (utf8Bytes (h ++ '.' :: b)) then
        match atobDecode b with
        | none => none
        | some bodyBytes => jsonParsePayload (bytesToChars bodyBytes)
      else none
  | _ => none

/-- The base64url header string auth.ts compares against. -/
def FIXED_HEADER : List Char := "eyJhbGciOiJIUzI1NiIsInR5cCI6IkpXVCJ9".toList

/-- Modelled from the spec: verifyJWT in src/auth.ts delegates to the
external jose library's jwtVerify, which is not part of this repository.
The source's own fixed-header comparison is kept verbatim; jwtVerify is
modelled per the spec as the sibling verifier that "checks both"
signature and exp: split into three parts, recompute the HMAC-SHA256
over header.payload with the shared secret, accept only on exact match,
and additionally reject a payload whose exp is not in the future. -/
def auth_verifyJWT (hmac : List Nat → List Nat → List Nat)
    (token secret : List Char) (now : Nat) : Option JWTPayload :=
  match splitOnDot token with
  | [h, b, s] =>
    if h = FIXED_HEADER then
      match atobDecode (fromUrl s), atobDecode (fromUrl b) with
      | some sig, some bodyBytes =>
        if sig = hmac (utf8Bytes secret) (utf8Bytes (h ++ '.' :: b)) then
          match jsonParsePayload (bytesToChars bodyBytes) with
          | some payload => if payload.exp ≤ now then none else some payload
          | none => none
        else none
      | _, _ => none
    else none
  | _ => none

-- ===================== concrete fixtures =====================

/-- A device-hash primitive for concrete runs: every input maps to "h1". -/
def exHash : String → String := fun _ => "h1"

/-- An identity-like hash for concrete runs: hashes are the raw input. -/
def exHashRaw : String → String := fun x => x

/-- A session row already granted to user u1 (device hash h1). -/
def exSession1 : SessionRow :=
  { id := "s1", user_id := "u1", license_key := "K",
    device_fingerprint := "fp", device_hash := "h1", browser_agent := "ag",
    created_at := 0, last_used := 0, daily_requests := 3, daily_reset_at := 50,
    is_active := true }

/-- A second active session of user u1 (device hash h2). -/
def exSession2 : SessionRow :=
  { id := "s2", user_id := "u1", license_key := "K",
    device_fingerprint := "fp2", device_hash := "h2", browser_agent := "ag2",
    created_at := 0, last_used := 0, daily_requests := 1, daily_reset_at := 50,
    is_active := true }

/-- A database where u1 already holds two active device sessions. -/
def exDbSessions : DB := { users := [], sessions := [exSession1, exSession2], quotas := [] }

/-- A plan-quota row whose daily_limit is zero. -/
def exQuotaZero : PlanQuotaRow :=
  { plan := "p0", daily_limit := 0, monthly_limit := 0, credits := 0, max_batch_size := 0 }

/-- A database holding only the zero-limit quota row. -/
def exDbQuotaZero : DB := { users := [], sessions := [], quotas := [exQuotaZero] }

/-- A quota row with the monthly plan's real daily limit. -/
def exQuotaMonthly : PlanQuotaRow :=
  { plan := "monthly", daily_limit := 50, monthly_limit := 1000, credits := 10000,
    max_batch_size := 20 }

/-- A database with one session carrying today's usage and the monthly quota. -/
def exDbQuota : DB :=
  { users := [], sessions := [exSession1], quotas := [exQuotaMonthly] }

/-- A license record sitting exactly at the expiry boundary. -/
def exUserBoundary : UserRow :=
  { id := "u1", email := "e@x", license_key := "K", plan := "monthly",
    status := "active", created_at := 0, expires_at := 100, payment_provider := "" }

/-- A database holding only the boundary license. -/
def exDbBoundary : DB := { users := [exUserBoundary], sessions := [], quotas := [] }

/-- A Dodo response that rejects the key (irrelevant on the local path). -/
def exDodoFail : DodoInfo := { ok := false, planType := none, custEmail := none }

/-- An existing license for e@x with a mid-range expiry, for renewal runs. -/
def exUserRenew : UserRow :=
  { id := "u1", email := "e@x", license_key := "K", plan := "monthly",
    status := "active", created_at := 0, expires_at := 500, payment_provider := "" }

/-- A database holding only the renewal candidate. -/
def exDbRenew : DB := { users := [exUserRenew], sessions := [], quotas := [] }

/-- A long-lived (lifetime) license record. -/
def exUserLifetime : UserRow :=
  { id := "u1", email := "e@x", license_key := "K", plan := "lifetime",
    status := "active", created_at := 0, expires_at := 10000000000,
    payment_provider := "" }

/-- A database holding only the lifetime license. -/
def exDbLifetime : DB := { users := [exUserLifetime], sessions := [], quotas := [] }

/-- The row the validate handler would upsert for key K at now = 7 when
Dodo reports plan monthly: expires_at = 7 + 30 * 86400. -/
def exMonthlyRow : UserRow :=
  { id := "u2", email := "e@x", license_key := "K", plan := "monthly",
    status := "active", created_at := 7, expires_at := 2592007,
    payment_provider := "" }

/-- A trivial HMAC stand-in for concrete webhook runs. -/
def exHmac : List Nat → List Nat → List Nat := fun _ _ => []

/-- A JSON.parse stand-in that rejects every body. -/
def exParseNone : String → Option (String × Unit) := fun _ => none

/-- A JSON.parse stand-in accepting exactly the body "ok". -/
def exParseOk : String → Option (String × Unit) :=
  fun s => if s = "ok" then some ("payment.succeeded", ()) else none

/-- A dedup state that has already processed webhook id w1. -/
def exWhState : WebhookState := { processed := ["w1"] }

/-- A well-formed duplicate delivery of w1. -/
def exReqDup : WebhookReq :=
  { hasBody := true, webhookId := "w1", webhookSig := "v1,AAAA", webhookTs := "1",
    rawBody := "b" }

/-- A delivery of the already-processed id w1 with no signature header. -/
def exReqDupNoSig : WebhookReq :=
  { hasBody := true, webhookId := "w1", webhookSig := "", webhookTs := "1",
    rawBody := "b" }

/-- A first delivery of w1 whose body is not valid JSON. -/
def exReqBadJson : WebhookReq :=
  { hasBody := true, webhookId := "w1", webhookSig := "v1,AAAA", webhookTs := "1",
    rawBody := "notjson" }

/-- A later delivery of w1 with a parseable body but no timestamp header. -/
def exReqLaterNoTs : WebhookReq :=
  { hasBody := true, webhookId := "w1", webhookSig := "v1,AAAA", webhookTs := "",
    rawBody := "ok" }

/-- A constant byte-valued HMAC stand-in for concrete JWT runs. -/
def exHmacBytes : List Nat → List Nat → List Nat := fun _ _ => [7, 200, 33]

/-- A payload whose exp (10) lies in the past of the test clock (11). -/
def exPayload : JWTPayload := { sub := "AKH-1", plan := "monthly", iat := 5, exp := 10 }

/-- A payload whose JSON text has length 2 mod 3, forcing '=' padding in
the btoa of the token's middle segment. -/
def exPayloadPad : JWTPayload := { sub := "A", plan := "a", iat := 0, exp := 0 }

-- ===================== theorems =====================

/-- Helper: whenever a session row with the derived (user_id, device_hash)
pair exists, getOrCreateDeviceSession takes the existing branch: it
returns that row (its counter reset if stale), inserts nothing, and
cannot throw. -/
theorem existingSession_ok (sha256 : String → String) (jwtSecret : String) (db : DB)
    (userId licenseKey fp agent : String) (now today : Nat) (newId : String)
    (h : ∃ s ∈ db.sessions, s.user_id = userId ∧
          s.device_hash = sha256 (fp ++ agent ++ userId ++ jwtSecret)) :
    ∃ s0 row,
      db.sessions.find? (fun s => s.user_id = userId ∧
        s.device_hash = sha256 (fp ++ agent ++ userId ++ jwtSecret)) = some s0 ∧
      (getOrCreateDeviceSession sha256 jwtSecret db userId licenseKey fp agent now today newId).1
        = Except.ok row ∧
      row.id = s0.id ∧ row.user_id = userId ∧
      row.device_hash = sha256 (fp ++ agent ++ userId ++ jwtSecret) ∧
      ((getOrCreateDeviceSession sha256 jwtSecret db userId licenseKey fp agent
          now today newId).2).sessions.length = db.sessions.length := by
  obtain ⟨s, hmem, hu, hh⟩ := h
  have hsome : (db.sessions.find? (fun s => s.user_id = userId ∧
      s.device_hash = sha256 (fp ++ agent ++ userId ++ jwtSecret))).isSome := by
    rw [List.find?_isSome]
    exact ⟨s, hmem, by simp [hu, hh]⟩
  cases hfind : db.sessions.find? (fun s => s.user_id = userId ∧
      s.device_hash = sha256 (fp ++ agent ++ userId ++ jwtSecret)) with
  | none => rw [hfind] at hsome; simp at hsome
  | some s0 =>
    have hp := List.find?_some hfind
    simp only [decide_eq_true_eq] at hp
    refine ⟨s0, if s0.daily_reset_at < today then { s0 with daily_requests := 0 } else s0,
      rfl, ?_, ?_, ?_, ?_, ?_⟩
    · simp only [getOrCreateDeviceSession, hfind]
      split <;> rfl
    · split <;> simp [hp.1]
    · split <;> simp [hp.1]
    · split <;> simp [hp.2]
    · simp only [getOrCreateDeviceSession, hfind]
      split <;> simp [List.length_map]

/-- Helper: a derived hash matching no session of the user, with the
account at the device cap, is rejected without any database change. -/
theorem newDevice_at_cap_rejected (sha256 : String → String) (jwtSecret : String) (db : DB)
    (userId licenseKey fp agent : String) (now today : Nat) (newId : String)
    (hnew : ∀ s ∈ db.sessions, ¬(s.user_id = userId ∧
          s.device_hash = sha256 (fp ++ agent ++ userId ++ jwtSecret)))
    (hfull : MAX_DEVICES_PER_LICENSE ≤
      (db.sessions.filter (fun s => s.user_id = userId ∧ s.is_active)).length) :
    getOrCreateDeviceSession sha256 jwtSecret db userId licenseKey fp agent now today newId
      = (Except.error "DEVICE_LIMIT_REACHED", db) := by
  have hnone : db.sessions.find? (fun s => s.user_id = userId ∧
      s.device_hash = sha256 (fp ++ agent ++ userId ++ jwtSecret)) = none := by
    rw [List.find?_eq_none]
    intro s hs
    simpa using hnew s hs
  simp only [getOrCreateDeviceSession, hnone]
  rw [if_pos hfull]

/-- C3: when a session row for the derived (user_id, device_hash) pair
already exists, getOrCreateDeviceSession returns that existing session,
inserts no second row, and never fails with DEVICE_LIMIT_REACHED — no
matter how many active sessions the account holds, because the
existing-session lookup precedes the active-session count. -/
theorem deviceSession_known_device_admitted (sha256 : String → String) (jwtSecret : String)
    (db : DB) (userId licenseKey fp agent : String) (now today : Nat) (newId : String)
    (h : ∃ s ∈ db.sessions, s.user_id = userId ∧
          s.device_hash = sha256 (fp ++ agent ++ userId ++ jwtSecret)) :
    ∃ s0 row,
      db.sessions.find? (fun s => s.user_id = userId ∧
        s.device_hash = sha256 (fp ++ agent ++ userId ++ jwtSecret)) = some s0 ∧
      (getOrCreateDeviceSession sha256 jwtSecret db userId licenseKey fp agent now today newId).1
        = Except.ok row ∧
      row.id = s0.id ∧ row.user_id = userId ∧
      row.device_hash = sha256 (fp ++ agent ++ userId ++ jwtSecret) ∧
      ((getOrCreateDeviceSession sha256 jwtSecret db userId licenseKey fp agent
          now today newId).2).sessions.length = db.sessions.length :=
  existingSession_ok sha256 jwtSecret db userId licenseKey fp agent now today newId h

/-- C3 witness: user u1 already has the h1 device registered; a repeated
call for it is admitted and adds no row, although u1 is at the cap. -/
theorem deviceSession_known_device_admitted_witness :
    (∃ s ∈ exDbSessions.sessions, s.user_id = "u1" ∧
        s.device_hash = exHash ("fp" ++ "ag" ++ "u1" ++ "sec")) ∧
    (∃ s0 row,
      exDbSessions.sessions.find? (fun s => s.user_id = "u1" ∧
        s.device_hash = exHash ("fp" ++ "ag" ++ "u1" ++ "sec")) = some s0 ∧
      (getOrCreateDeviceSession exHash "sec" exDbSessions "u1" "K" "fp" "ag" 60 55 "n").1
        = Except.ok row ∧
      row.id = s0.id ∧ row.user_id = "u1" ∧
      row.device_hash = exHash ("fp" ++ "ag" ++ "u1" ++ "sec") ∧
      ((getOrCreateDeviceSession exHash "sec" exDbSessions "u1" "K" "fp" "ag"
          60 55 "n").2).sessions.length = exDbSessions.sessions.length) :=
  ⟨by decide, deviceSession_known_device_admitted exHash "sec" exDbSessions "u1" "K" "fp" "ag"
    60 55 "n" (by decide)⟩

/-- C4: with the account already holding MAX_DEVICES_PER_LICENSE (2) or
more active sessions, a call whose derived device hash matches none of
the user's sessions fails with DEVICE_LIMIT_REACHED and leaves the
database untouched, while any already-registered device of the user
continues to be admitted without a new row. -/
theorem deviceSession_cap_blocks_only_new (sha256 : String → String) (jwtSecret : String)
    (db : DB) (userId licenseKey fp agent : String) (now today : Nat) (newId : String)
    (hnew : ∀ s ∈ db.sessions, ¬(s.user_id = userId ∧
          s.device_hash = sha256 (fp ++ agent ++ userId ++ jwtSecret)))
    (hfull : MAX_DEVICES_PER_LICENSE ≤
      (db.sessions.filter (fun s => s.user_id = userId ∧ s.is_active)).length) :
    getOrCreateDeviceSession sha256 jwtSecret db userId licenseKey fp agent now today newId
      = (Except.error "DEVICE_LIMIT_REACHED", db) ∧
    ∀ fp2 ag2 now2 today2 newId2,
      (∃ s ∈ db.sessions, s.user_id = userId ∧
          s.device_hash = sha256 (fp2 ++ ag2 ++ userId ++ jwtSecret)) →
      ∃ s0 row,
        db.sessions.find? (fun s => s.user_id = userId ∧
          s.device_hash = sha256 (fp2 ++ ag2 ++ userId ++ jwtSecret)) = some s0 ∧
        (getOrCreateDeviceSession sha256 jwtSecret db userId licenseKey fp2 ag2
            now2 today2 newId2).1 = Except.ok row ∧
        row.id = s0.id ∧ row.user_id = userId ∧
        row.device_hash = sha256 (fp2 ++ ag2 ++ userId ++ jwtSecret) ∧
        ((getOrCreateDeviceSession sha256 jwtSecret db userId licenseKey fp2 ag2
            now2 today2 newId2).2).sessions.length = db.sessions.length :=
  ⟨newDevice_at_cap_rejected sha256 jwtSecret db userId licenseKey fp agent now today newId
      hnew hfull,
   fun fp2 ag2 now2 today2 newId2 h =>
     existingSession_ok sha256 jwtSecret db userId licenseKey fp2 ag2 now2 today2 newId2 h⟩

/-- C4 witness: u1 holds two active sessions; a third, never-seen device
is rejected with DEVICE_LIMIT_REACHED and nothing changes. -/
theorem deviceSession_cap_blocks_only_new_witness :
    (∀ s ∈ exDbSessions.sessions, ¬(s.user_id = "u1" ∧
        s.device_hash = exHashRaw ("fp3" ++ "ag3" ++ "u1" ++ "sec"))) ∧
    (MAX_DEVICES_PER_LICENSE ≤
      (exDbSessions.sessions.filter (fun s => s.user_id = "u1" ∧ s.is_active)).length) ∧
    (getOrCreateDeviceSession exHashRaw "sec" exDbSessions "u1" "K" "fp3" "ag3" 60 55 "n"
      = (Except.error "DEVICE_LIMIT_REACHED", exDbSessions) ∧
    ∀ fp2 ag2 now2 today2 newId2,
      (∃ s ∈ exDbSessions.sessions, s.user_id = "u1" ∧
          s.device_hash = exHashRaw (fp2 ++ ag2 ++ "u1" ++ "sec")) →
      ∃ s0 row,
        exDbSessions.sessions.find? (fun s => s.user_id = "u1" ∧
          s.device_hash = exHashRaw (fp2 ++ ag2 ++ "u1" ++ "sec")) = some s0 ∧
        (getOrCreateDeviceSession exHashRaw "sec" exDbSessions "u1" "K" fp2 ag2
            now2 today2 newId2).1 = Except.ok row ∧
        row.id = s0.id ∧ row.user_id = "u1" ∧
        row.device_hash = exHashRaw (fp2 ++ ag2 ++ "u1" ++ "sec") ∧
        ((getOrCreateDeviceSession exHashRaw "sec" exDbSessions "u1" "K" fp2 ag2
            now2 today2 newId2).2).sessions.length = exDbSessions.sessions.length) :=
  ⟨by decide, by decide,
   deviceSession_cap_blocks_only_new exHashRaw "sec" exDbSessions "u1" "K" "fp3" "ag3"
     60 55 "n" (by decide) (by decide)⟩

/-- C5 (amended): with a plan-quota row present whose daily_limit is
nonzero, the gate admits exactly when the summed daily usage over
sessions with daily_reset_at at or past today's boundary is strictly
below daily_limit; otherwise it fails with the used/limit pair. -/
theorem quota_admission_iff (db : DB) (userId plan : String) (today : Nat) (q : PlanQuotaRow)
    (hq : db.quotas.find? (fun r => r.plan = plan) = some q)
    (hnz : q.daily_limit ≠ 0) :
    (quotaGate db userId plan today = GateResult.admitted ↔
      dailyUsage db userId today < q.daily_limit) ∧
    (q.daily_limit ≤ dailyUsage db userId today →
      quotaGate db userId plan today =
        GateResult.quotaExceeded (dailyUsage db userId today) q.daily_limit) := by
  have hlim : gateDailyLimit db plan = q.daily_limit := by
    simp only [gateDailyLimit, hq]
    rw [if_neg hnz]
  constructor
  · simp only [quotaGate, hlim]
    split
    · simp only [reduceCtorEq, false_iff, not_lt]
      omega
    · simp only [true_iff]
      omega
  · intro hge
    simp only [quotaGate, hlim]
    rw [if_pos hge]

/-- C5 witness: under the monthly quota (daily_limit 50) with 3 requests
used today, the gate admits, and the iff evaluates at that state. -/
theorem quota_admission_iff_witness :
    (exDbQuota.quotas.find? (fun r => r.plan = "monthly") = some exQuotaMonthly) ∧
    exQuotaMonthly.daily_limit ≠ 0 ∧
    ((quotaGate exDbQuota "u1" "monthly" 50 = GateResult.admitted ↔
      dailyUsage exDbQuota "u1" 50 < exQuotaMonthly.daily_limit) ∧
    (exQuotaMonthly.daily_limit ≤ dailyUsage exDbQuota "u1" 50 →
      quotaGate exDbQuota "u1" "monthly" 50 =
        GateResult.quotaExceeded (dailyUsage exDbQuota "u1" 50) exQuotaMonthly.daily_limit)) :=
  ⟨by decide, by decide,
   quota_admission_iff exDbQuota "u1" "monthly" 50 exQuotaMonthly (by decide) (by decide)⟩

/-- C5 counterexample: a stored plan-quota row with daily_limit 0 — the
claim demands rejection (0 < 0 is false), but the handler's
quota.daily_limit || 10 fallback admits the request. -/
theorem quota_zero_limit_admits :
    exDbQuotaZero.quotas.find? (fun r => r.plan = "p0") = some exQuotaZero ∧
    exQuotaZero.daily_limit = 0 ∧
    ¬(dailyUsage exDbQuotaZero "u" 0 < exQuotaZero.daily_limit) ∧
    quotaGate exDbQuotaZero "u" "p0" 0 = GateResult.admitted := by
  refine ⟨by decide, rfl, by decide, by decide⟩

/-- C1 counterexample: a stored active license whose expires_at equals
the current time.  The claim demands a 403 failure for expires_at <=
now, but the handler's test is expires_at < now, so validation succeeds
and mints a token at the boundary. -/
theorem validate_boundary_now_succeeds :
    exUserBoundary.status = "active" ∧ exUserBoundary.expires_at = 100 ∧
    (validateHandler exDbBoundary "K" 100 5000 exDodoFail "n").1 =
      AuthResult.ok { sub := "K", plan := "monthly", iat := 5000, exp := 100 }
        "e@x" "monthly" := by
  refine ⟨rfl, rfl, by decide⟩

/-- C1 (amended): for a stored license, validate fails 403 "License
inactive" whenever status is not active, fails 403 "License expired"
whenever status is active and expires_at is strictly below now, and any
success implies status active and now <= expires_at (with the token's
exp the stored expiry); so no token is minted in either failure case. -/
theorem validate_local_checks (db : DB) (license_key : String) (now nowMs : Nat)
    (dodo : DodoInfo) (newId : String) (localUser : UserRow)
    (hkey : license_key ≠ "")
    (hfind : db.users.find? (fun u => u.license_key = license_key) = some localUser) :
    (localUser.status ≠ "active" →
      validateHandler db license_key now nowMs dodo newId =
        (AuthResult.err "License inactive" 403, db)) ∧
    (localUser.status = "active" → localUser.expires_at < now →
      validateHandler db license_key now nowMs dodo newId =
        (AuthResult.err "License expired" 403, db)) ∧
    (∀ p e pl, (validateHandler db license_key now nowMs dodo newId).1 =
        AuthResult.ok p e pl →
      localUser.status = "active" ∧ now ≤ localUser.expires_at ∧
        p.exp = localUser.expires_at) := by
  refine ⟨?_, ?_, ?_⟩
  · intro hst
    simp only [validateHandler, if_neg hkey, hfind]
    rw [if_pos hst]
  · intro hst hexp
    simp only [validateHandler, if_neg hkey, hfind]
    rw [if_neg (by simp [hst]), if_pos hexp]
  · intro p e pl hok
    simp only [validateHandler, if_neg hkey, hfind] at hok
    by_cases hst : localUser.status = "active"
    · by_cases hexp : localUser.expires_at < now
      · rw [if_neg (by simp [hst]), if_pos hexp] at hok
        simp at hok
      · rw [if_neg (by simp [hst]), if_neg hexp] at hok
        simp only [AuthResult.ok.injEq] at hok
        refine ⟨hst, by omega, ?_⟩
        rw [← hok.1]
    · rw [if_pos (by simp [hst])] at hok
      simp at hok

/-- C1 witness: the boundary license at now = 50 instantiates the
status/expiry case analysis. -/
theorem validate_local_checks_witness :
    ("K" : String) ≠ "" ∧
    exDbBoundary.users.find? (fun u => u.license_key = "K") = some exUserBoundary ∧
    ((exUserBoundary.status ≠ "active" →
      validateHandler exDbBoundary "K" 50 0 exDodoFail "n" =
        (AuthResult.err "License inactive" 403, exDbBoundary)) ∧
    (exUserBoundary.status = "active" → exUserBoundary.expires_at < 50 →
      validateHandler exDbBoundary "K" 50 0 exDodoFail "n" =
        (AuthResult.err "License expired" 403, exDbBoundary)) ∧
    (∀ p e pl, (validateHandler exDbBoundary "K" 50 0 exDodoFail "n").1 =
        AuthResult.ok p e pl →
      exUserBoundary.status = "active" ∧ 50 ≤ exUserBoundary.expires_at ∧
        p.exp = exUserBoundary.expires_at)) :=
  ⟨by decide, by decide,
   validate_local_checks exDbBoundary "K" 50 0 exDodoFail "n" exUserBoundary
     (by decide) (by decide)⟩

/-- C2: a success-type event resolved to an email and a catalogued
product renews an existing license for that email to
max(current expiry, now) + duration with status forced to active, and
creates a license expiring at now + duration when none exists. -/
theorem webhook_renewal_arithmetic (db : DB) (email productId : String)
    (now : Nat) (newUserId newLicenseKey : String) (cfg : ProductCfg)
    (hcfg : PRODUCTS productId = some cfg) :
    (∀ u, db.users.find? (fun x => x.email = email) = some u →
      ∃ row ∈ (processSuccessEvent db email productId now newUserId newLicenseKey).users,
        row.id = u.id ∧
        row.expires_at = max u.expires_at now + cfg.durationDays * 86400 ∧
        row.status = "active" ∧ row.plan = cfg.plan) ∧
    (db.users.find? (fun x => x.email = email) = none →
      (processSuccessEvent db email productId now newUserId newLicenseKey).users =
        db.users ++ [{ id := newUserId, email := email, license_key := newLicenseKey,
                       plan := cfg.plan, status := "active", created_at := now,
                       expires_at := now + cfg.durationDays * 86400,
                       payment_provider := "dodo_webhook" }]) := by
  constructor
  · intro u hu
    refine ⟨{ u with
        plan := cfg.plan,
        status := "active",
        expires_at := (if now < u.expires_at then u.expires_at else now)
          + cfg.durationDays * 86400,
        payment_provider := "dodo_webhook" }, ?_, ?_, ?_, rfl, rfl⟩
    · simp only [processSuccessEvent, hcfg, hu]
      have hmem := List.mem_of_find?_eq_some hu
      have := List.mem_map_of_mem (fun x : UserRow =>
        if x.id = u.id then
          { x with
            plan := cfg.plan,
            status := "active",
            expires_at := (if now < u.expires_at then u.expires_at else now)
              + cfg.durationDays * 86400,
            payment_provider := "dodo_webhook" }
        else x) hmem
      simpa using this
    · rfl
    · simp only
      rcases Nat.lt_or_ge now u.expires_at with hlt | hge
      · rw [if_pos hlt, Nat.max_eq_left (Nat.le_of_lt hlt)]
      · rw [if_neg (by omega), Nat.max_eq_right hge]
  · intro hnone
    simp only [processSuccessEvent, hcfg, hnone]

/-- C2 witness: renewing the e@x monthly license at now = 1000 against a
stored expiry of 500 lands on max(500, 1000) + 30 days, status active. -/
theorem webhook_renewal_arithmetic_witness :
    PRODUCTS "pdt_0NWZwZB3eia1vz1BCOw6C" = some ⟨"monthly", 30, "Monthly Pro"⟩ ∧
    ((∀ u, exDbRenew.users.find? (fun x => x.email = "e@x") = some u →
      ∃ row ∈ (processSuccessEvent exDbRenew "e@x" "pdt_0NWZwZB3eia1vz1BCOw6C"
          1000 "nu" "NK").users,
        row.id = u.id ∧
        row.expires_at = max u.expires_at 1000 + (30 : Nat) * 86400 ∧
        row.status = "active" ∧ row.plan = "monthly") ∧
    (exDbRenew.users.find? (fun x => x.email = "e@x") = none →
      (processSuccessEvent exDbRenew "e@x" "pdt_0NWZwZB3eia1vz1BCOw6C"
          1000 "nu" "NK").users =
        exDbRenew.users ++ [{ id := "nu", email := "e@x", license_key := "NK",
                              plan := "monthly", status := "active", created_at := 1000,
                              expires_at := 1000 + (30 : Nat) * 86400,
                              payment_provider := "dodo_webhook" }])) :=
  ⟨by decide,
   webhook_renewal_arithmetic exDbRenew "e@x" "pdt_0NWZwZB3eia1vz1BCOw6C"
     1000 "nu" "NK" ⟨"monthly", 30, "Monthly Pro"⟩ (by decide)⟩

/-- C7 counterexample: the validate upsert's DO UPDATE branch overwrites
expires_at unconditionally.  Applied to a state whose K row is a
lifetime license, the row the validate flow would write for a monthly
plan at now = 7 moves expires_at from 10000000000 down to 2592007. -/
theorem upsert_moves_expiry_backward :
    exUserLifetime ∈ exDbLifetime.users ∧
    exMonthlyRow.license_key = exUserLifetime.license_key ∧
    (upsertUser exDbLifetime exMonthlyRow).users.map UserRow.expires_at = [2592007] ∧
    exDbLifetime.users.map UserRow.expires_at = [10000000000] ∧
    (2592007 : Nat) < 10000000000 := by
  refine ⟨by decide, by decide, by decide, by decide, by decide⟩

/-- C7 (amended): the webhook success mutation never lowers any user's
expires_at (renewal arithmetic only moves it forward), and the validate
upsert preserves every stored row whenever no row with that license key
exists — the only situation the sequential validate flow reaches it in;
its conflict branch, exercised in the counterexample, overwrites
expires_at unconditionally and is not monotone. -/
theorem expiry_never_decreases (db : DB) (email productId : String) (now : Nat)
    (newUserId newLicenseKey : String)
    (hids : (db.users.map UserRow.id).Nodup) :
    (∀ u ∈ db.users,
      ∃ v ∈ (processSuccessEvent db email productId now newUserId newLicenseKey).users,
        v.id = u.id ∧ u.expires_at ≤ v.expires_at) ∧
    (∀ row : UserRow, db.users.find? (fun u => u.license_key = row.license_key) = none →
      (upsertUser db row).users = db.users ++ [row]) := by
  constructor
  · intro u hu
    cases hcfg : PRODUCTS productId with
    | none =>
      refine ⟨u, ?_, rfl, le_refl _⟩
      simp only [processSuccessEvent, hcfg]
      exact hu
    | some cfg =>
      cases hfind : db.users.find? (fun x => x.email = email) with
      | none =>
        refine ⟨u, ?_, rfl, le_refl _⟩
        simp only [processSuccessEvent, hcfg, hfind]
        exact List.mem_append_left _ hu
      | some u0 =>
        by_cases hid : u.id = u0.id
        · have huu : u = u0 :=
            List.inj_on_of_nodup_map hids hu (List.mem_of_find?_eq_some hfind) hid
          subst huu
          refine ⟨{ u with
              plan := cfg.plan,
              status := "active",
              expires_at := (if now < u.expires_at then u.expires_at else now)
                + cfg.durationDays * 86400,
              payment_provider := "dodo_webhook" }, ?_, rfl, ?_⟩
          · simp only [processSuccessEvent, hcfg, hfind]
            have := List.mem_map_of_mem (fun x : UserRow =>
              if x.id = u.id then
                { x with
                  plan := cfg.plan,
                  status := "active",
                  expires_at := (if now < u.expires_at then u.expires_at else now)
                    + cfg.durationDays * 86400,
                  payment_provider := "dodo_webhook" }
              else x) hu
            simpa using this
          · simp only
            split <;> omega
        · refine ⟨u, ?_, rfl, le_refl _⟩
          simp only [processSuccessEvent, hcfg, hfind]
          have := List.mem_map_of_mem (fun x : UserRow =>
            if x.id = u0.id then
              { x with
                plan := cfg.plan,
                status := "active",
                expires_at := (if now < u0.expires_at then u0.expires_at else now)
                  + cfg.durationDays * 86400,
                payment_provider := "dodo_webhook" }
            else x) hu
          simpa [hid] using this
  · intro row hnone
    simp only [upsertUser, hnone]

/-- C7 witness: over the single-user renewal database, every stored
expiry survives a success event without decreasing, and a fresh-key
upsert is a pure insert. -/
theorem expiry_never_decreases_witness :
    (exDbRenew.users.map UserRow.id).Nodup ∧
    ((∀ u ∈ exDbRenew.users,
      ∃ v ∈ (processSuccessEvent exDbRenew "e@x" "pdt_0NWZwZB3eia1vz1BCOw6C"
          1000 "nu" "NK").users,
        v.id = u.id ∧ u.expires_at ≤ v.expires_at) ∧
    (∀ row : UserRow,
      exDbRenew.users.find? (fun u => u.license_key = row.license_key) = none →
      (upsertUser exDbRenew row).users = exDbRenew.users ++ [row])) :=
  ⟨by decide,
   expiry_never_decreases exDbRenew "e@x" "pdt_0NWZwZB3eia1vz1BCOw6C" 1000 "nu" "NK"
     (by decide)⟩

/-- Helper: a request that has a body, carries all three headers, passes
(or skips) signature verification, and reuses a processed webhook id is
answered 200 duplicate with no state change and no background task. -/
theorem duplicatePath_returns_200 {α : Type} (hmac : List Nat → List Nat → List Nat)
    (jsonParse : String → Option (String × α)) (secret : String)
    (st : WebhookState) (req : WebhookReq)
    (hbody : req.hasBody = true)
    (hid : req.webhookId ≠ "") (hsg : req.webhookSig ≠ "") (hts : req.webhookTs ≠ "")
    (hsig : secret = "" ∨ verifySignature hmac req.rawBody req.webhookSig req.webhookTs
        req.webhookId secret = true)
    (hdup : req.webhookId ∈ st.processed) :
    handleDodoWebhook hmac jsonParse secret st req = (WhResp.duplicate200, st, none) := by
  simp only [handleDodoWebhook, hbody]
  rw [if_neg (by simp), if_neg (by simp [hid, hsg, hts]),
    if_neg (by rcases hsig with h | h <;> simp [h]), if_pos hdup]

/-- C6 counterexample: webhook id w1 is already processed, yet a request
reusing it without a signature header is answered 400 missing-headers,
not 200 duplicate — the 200-duplicate answer is reached only after the
body, header and signature guards. -/
theorem webhook_processed_id_not_always_duplicate :
    "w1" ∈ exWhState.processed ∧
    handleDodoWebhook exHmac exParseNone "s" exWhState exReqDupNoSig
      = (WhResp.missingHeaders400, exWhState, none) ∧
    WhResp.missingHeaders400 ≠ WhResp.duplicate200 := by
  refine ⟨by decide, by decide, by decide⟩

/-- C6 (amended): every webhook request that has a body, carries the
three webhook headers, and passes signature verification (or the secret
is unconfigured, so verification is skipped), whose webhook_id is
already processed, is answered 200 duplicate with no state mutation and
no background lifecycle task — a given webhook_id is applied at most
once. -/
theorem webhook_duplicate_no_mutation {α : Type} (hmac : List Nat → List Nat → List Nat)
    (jsonParse : String → Option (String × α)) (secret : String)
    (st : WebhookState) (req : WebhookReq)
    (hbody : req.hasBody = true)
    (hid : req.webhookId ≠ "") (hsg : req.webhookSig ≠ "") (hts : req.webhookTs ≠ "")
    (hsig : secret = "" ∨ verifySignature hmac req.rawBody req.webhookSig req.webhookTs
        req.webhookId secret = true)
    (hdup : req.webhookId ∈ st.processed) :
    handleDodoWebhook hmac jsonParse secret st req = (WhResp.duplicate200, st, none) :=
  duplicatePath_returns_200 hmac jsonParse secret st req hbody hid hsg hts hsig hdup

/-- C6 witness: replaying w1 with the secret unconfigured is answered
200 duplicate and changes nothing. -/
theorem webhook_duplicate_no_mutation_witness :
    exReqDup.hasBody = true ∧ exReqDup.webhookId ≠ "" ∧ exReqDup.webhookSig ≠ "" ∧
    exReqDup.webhookTs ≠ "" ∧
    (("" : String) = "" ∨ verifySignature exHmac exReqDup.rawBody exReqDup.webhookSig
        exReqDup.webhookTs exReqDup.webhookId "" = true) ∧
    exReqDup.webhookId ∈ exWhState.processed ∧
    handleDodoWebhook exHmac exParseNone "" exWhState exReqDup
      = (WhResp.duplicate200, exWhState, none) :=
  ⟨rfl, by decide, by decide, by decide, Or.inl rfl, by decide,
   webhook_duplicate_no_mutation exHmac exParseNone "" exWhState exReqDup rfl
     (by decide) (by decide) (by decide) (Or.inl rfl) (by decide)⟩

/-- C10 counterexample: after the invalid-JSON delivery of w1 has been
answered 400 with w1 marked processed, a later delivery of w1 with a
parseable body but a missing timestamp header is answered 400
missing-headers, not 200 duplicate — so not every later delivery
reusing the id is answered duplicate:true. -/
theorem webhook_poisoned_id_later_delivery_400 :
    handleDodoWebhook exHmac exParseOk "" { processed := [] } exReqBadJson
      = (WhResp.invalidJson400, { processed := ["w1"] }, none) ∧
    exParseOk exReqLaterNoTs.rawBody = some ("payment.succeeded", ()) ∧
    handleDodoWebhook exHmac exParseOk "" { processed := ["w1"] } exReqLaterNoTs
      = (WhResp.missingHeaders400, { processed := ["w1"] }, none) ∧
    WhResp.missingHeaders400 ≠ WhResp.duplicate200 := by
  refine ⟨by decide, by decide, by decide, by decide⟩

/-- C10 (amended): a request passing the body/header/signature and
duplicate checks whose raw body fails to parse is answered 400
invalid-JSON with its webhook_id already added to the processed set and
no background task; every later delivery reusing that id that passes the
body/header/signature checks is answered 200 duplicate with no state
change and no background task, so the id's lifecycle event is never
applied. -/
theorem webhook_badjson_then_locked {α : Type} (hmac : List Nat → List Nat → List Nat)
    (jsonParse : String → Option (String × α)) (secret : String)
    (st : WebhookState) (req : WebhookReq)
    (hbody : req.hasBody = true)
    (hid : req.webhookId ≠ "") (hsg : req.webhookSig ≠ "") (hts : req.webhookTs ≠ "")
    (hsig : secret = "" ∨ verifySignature hmac req.rawBody req.webhookSig req.webhookTs
        req.webhookId secret = true)
    (hnew : req.webhookId ∉ st.processed)
    (hjson : jsonParse req.rawBody = none) :
    handleDodoWebhook hmac jsonParse secret st req =
      (WhResp.invalidJson400, { processed := req.webhookId :: st.processed }, none) ∧
    ∀ req2 : WebhookReq, req2.webhookId = req.webhookId → req2.hasBody = true →
      req2.webhookSig ≠ "" → req2.webhookTs ≠ "" →
      (secret = "" ∨ verifySignature hmac req2.rawBody req2.webhookSig req2.webhookTs
          req2.webhookId secret = true) →
      handleDodoWebhook hmac jsonParse secret { processed := req.webhookId :: st.processed } req2
        = (WhResp.duplicate200, { processed := req.webhookId :: st.processed }, none) := by
  constructor
  · simp only [handleDodoWebhook, hbody]
    rw [if_neg (by simp), if_neg (by simp [hid, hsg, hts]),
      if_neg (by rcases hsig with h | h <;> simp [h]), if_neg hnew, hjson]
  · intro req2 hid2 hbody2 hsg2 hts2 hsig2
    exact duplicatePath_returns_200 hmac jsonParse secret _ req2 hbody2
      (by rw [hid2]; exact hid) hsg2 hts2 hsig2
      (by rw [hid2]; exact List.mem_cons_self _ _)

/-- C10 witness: the invalid-JSON delivery of w1 poisons the id and the
locked-out consequence holds for all later conforming deliveries. -/
theorem webhook_badjson_then_locked_witness :
    exReqBadJson.hasBody = true ∧ exReqBadJson.webhookId ≠ "" ∧
    exReqBadJson.webhookSig ≠ "" ∧ exReqBadJson.webhookTs ≠ "" ∧
    (("" : String) = "" ∨ verifySignature exHmac exReqBadJson.rawBody exReqBadJson.webhookSig
        exReqBadJson.webhookTs exReqBadJson.webhookId "" = true) ∧
    exReqBadJson.webhookId ∉ (WebhookState.mk []).processed ∧
    exParseOk exReqBadJson.rawBody = none ∧
    (handleDodoWebhook exHmac exParseOk "" { processed := [] } exReqBadJson =
      (WhResp.invalidJson400, { processed := exReqBadJson.webhookId :: [] }, none) ∧
    ∀ req2 : WebhookReq, req2.webhookId = exReqBadJson.webhookId → req2.hasBody = true →
      req2.webhookSig ≠ "" → req2.webhookTs ≠ "" →
      (("" : String) = "" ∨ verifySignature exHmac req2.rawBody req2.webhookSig req2.webhookTs
          req2.webhookId "" = true) →
      handleDodoWebhook exHmac exParseOk ""
          { processed := exReqBadJson.webhookId :: [] } req2
        = (WhResp.duplicate200, { processed := exReqBadJson.webhookId :: [] }, none)) :=
  ⟨rfl, by decide, by decide, by decide, Or.inl rfl, by decide, by decide,
   webhook_badjson_then_locked exHmac exParseOk "" { processed := [] } exReqBadJson rfl
     (by decide) (by decide) (by decide) (Or.inl rfl) (by decide) (by decide)⟩

-- ============ base64 / JSON / JWT lemma stack ============

theorem b64Char_mem (n : Nat) : b64Char n ∈ b64AlphaChars := by
  unfold b64Char List.getD
  cases h : b64AlphaChars.get? n with
  | none => decide
  | some c =>
    simp only [Option.getD_some]
    exact List.get?_mem h

theorem alpha_clean : ∀ c ∈ b64AlphaChars,
    c ≠ '=' ∧ c ≠ '.' ∧ c ≠ '-' ∧ c ≠ '_' := by decide

theorem b64Char_ne_eq (n : Nat) : b64Char n ≠ '=' :=
  (alpha_clean _ (b64Char_mem n)).1

theorem b64Char_ne_dot (n : Nat) : b64Char n ≠ '.' :=
  (alpha_clean _ (b64Char_mem n)).2.1

theorem b64Val_b64Char : ∀ n, n < 64 → b64Val (b64Char n) = some n := by decide

theorem base64Encode_shape (bs : List Nat) :
    ∃ t k, base64Encode bs = t ++ List.replicate k '=' ∧ k ≤ 2 ∧
      (∀ c ∈ t, c ∈ b64AlphaChars) ∧ (t.length + k) % 4 = 0 := by
  induction bs using base64Encode.induct with
  | case1 => exact ⟨[], 0, rfl, by omega, by simp, by decide⟩
  | case2 a =>
    refine ⟨[b64Char (a / 4), b64Char (a % 4 * 16)], 2, rfl, by omega, ?_, by norm_num⟩
    intro c hc
    simp only [List.mem_cons, List.not_mem_nil, or_false] at hc
    rcases hc with rfl | rfl <;> exact b64Char_mem _
  | case3 a b =>
    refine ⟨[b64Char (a / 4), b64Char (a % 4 * 16 + b / 16), b64Char (b % 16 * 4)], 1,
      rfl, by omega, ?_, by norm_num⟩
    intro c hc
    simp only [List.mem_cons, List.not_mem_nil, or_false] at hc
    rcases hc with rfl | rfl | rfl <;> exact b64Char_mem _
  | case4 a b c rest ih =>
    obtain ⟨t, k, henc, hk, ht, hlen⟩ := ih
    refine ⟨b64Char (a / 4) :: b64Char (a % 4 * 16 + b / 16) ::
      b64Char (b % 16 * 4 + c / 64) :: b64Char (c % 64) :: t, k, ?_, hk, ?_, ?_⟩
    · simp [base64Encode, henc]
    · intro x hx
      simp only [List.mem_cons] at hx
      rcases hx with rfl | rfl | rfl | rfl | hx
      · exact b64Char_mem _
      · exact b64Char_mem _
      · exact b64Char_mem _
      · exact b64Char_mem _
      · exact ht x hx
    · simp only [List.length_cons]
      omega

theorem dropTrailEq2_no_eq (t : List Char) (ht : ∀ c ∈ t, c ≠ '=') :
    dropTrailEq2 t = t := by
  unfold dropTrailEq2
  split
  · next r heq =>
    exfalso
    have hm : '=' ∈ t.reverse := by rw [heq]; simp
    exact ht '=' (List.mem_reverse.mp hm) rfl
  · next r heq =>
    exfalso
    have hm : '=' ∈ t.reverse := by rw [heq]; simp
    exact ht '=' (List.mem_reverse.mp hm) rfl
  · rfl

theorem dropTrailEq2_pad (t : List Char) (k : Nat) (hk : k ≤ 2) (ht : ∀ c ∈ t, c ≠ '=') :
    dropTrailEq2 (t ++ List.replicate k '=') = t := by
  interval_cases k
  · simpa using dropTrailEq2_no_eq t ht
  · unfold dropTrailEq2
    have hrev : (t ++ List.replicate 1 '=').reverse = '=' :: t.reverse := by simp
    rw [hrev]
    cases h : t.reverse with
    | nil =>
      have : t = [] := by simpa using congrArg List.reverse h
      simp [this]
    | cons c r =>
      have hc : c ∈ t := List.mem_reverse.mp (by rw [h]; simp)
      have hcne : c ≠ '=' := ht c hc
      split
      · next heq =>
        injection heq with h1 h2
        injection h2 with h3 h4
        exact absurd h3 hcne
      · next heq =>
        injection heq with h1 h2
        rw [← h2, ← h, List.reverse_reverse]
      · next hno1 hno2 =>
        exact absurd rfl (hno2 (c :: r))
  · unfold dropTrailEq2
    have hrev : (t ++ List.replicate 2 '=').reverse = '=' :: '=' :: t.reverse := by simp
    rw [hrev]
    exact List.reverse_reverse t

theorem decode4_encode_filter (bs : List Nat) (hb : ∀ x ∈ bs, x < 256) :
    decode4 ((base64Encode bs).filter (fun c => c ≠ '=')) = some bs := by
  induction bs using base64Encode.induct with
  | case1 => rfl
  | case2 a =>
    have ha : a < 256 := hb a (by simp)
    have h1 : b64Val (b64Char (a / 4)) = some (a / 4) := b64Val_b64Char _ (by omega)
    have h2 : b64Val (b64Char (a % 4 * 16)) = some (a % 4 * 16) := b64Val_b64Char _ (by omega)
    have hf : (base64Encode [a]).filter (fun c => c ≠ '=') =
        [b64Char (a / 4), b64Char (a % 4 * 16)] := by
      simp [base64Encode, List.filter_cons, b64Char_ne_eq]
    rw [hf]
    simp [decode4, h1, h2]
    omega
  | case3 a b =>
    have ha : a < 256 := hb a (by simp)
    have hbb : b < 256 := hb b (by simp)
    have h1 : b64Val (b64Char (a / 4)) = some (a / 4) := b64Val_b64Char _ (by omega)
    have h2 : b64Val (b64Char (a % 4 * 16 + b / 16)) = some (a % 4 * 16 + b / 16) :=
      b64Val_b64Char _ (by omega)
    have h3 : b64Val (b64Char (b % 16 * 4)) = some (b % 16 * 4) := b64Val_b64Char _ (by omega)
    have hf : (base64Encode [a, b]).filter (fun c => c ≠ '=') =
        [b64Char (a / 4), b64Char (a % 4 * 16 + b / 16), b64Char (b % 16 * 4)] := by
      simp [base64Encode, List.filter_cons, b64Char_ne_eq]
    rw [hf]
    simp [decode4, h1, h2, h3]
    omega
  | case4 a b c rest ih =>
    have ha : a < 256 := hb a (by simp)
    have hbb : b < 256 := hb b (by simp)
    have hc : c < 256 := hb c (by simp)
    have hrest : ∀ x ∈ rest, x < 256 := fun x hx => hb x (by simp [hx])
    have h1 : b64Val (b64Char (a / 4)) = some (a / 4) := b64Val_b64Char _ (by omega)
    have h2 : b64Val (b64Char (a % 4 * 16 + b / 16)) = some (a % 4 * 16 + b / 16) :=
      b64Val_b64Char _ (by omega)
    have h3 : b64Val (b64Char (b % 16 * 4 + c / 64)) = some (b % 16 * 4 + c / 64) :=
      b64Val_b64Char _ (by omega)
    have h4 : b64Val (b64Char (c % 64)) = some (c % 64) := b64Val_b64Char _ (by omega)
    have hf : (base64Encode (a :: b :: c :: rest)).filter (fun x => x ≠ '=') =
        b64Char (a / 4) :: b64Char (a % 4 * 16 + b / 16) ::
          b64Char (b % 16 * 4 + c / 64) :: b64Char (c % 64) ::
          (base64Encode rest).filter (fun x => x ≠ '=') := by
      simp [base64Encode, List.filter_cons, b64Char_ne_eq]
    rw [hf]
    have ih2 : decode4 (List.filter (fun x => !decide (x = '=')) (base64Encode rest))
        = some rest := by simpa using ih hrest
    simp [decode4, h1, h2, h3, h4, ih2]
    omega

theorem char_toNat_ofNat (n : Nat) (h : n < 256) : (Char.ofNat n).toNat = n := by
  unfold Char.ofNat
  split
  · rfl
  · next hn => exact absurd (Or.inl (by omega)) hn

theorem base64Encode_mem (bs : List Nat) :
    ∀ c ∈ base64Encode bs, c ∈ b64AlphaChars ∨ c = '=' := by
  obtain ⟨t, k, henc, hk, ht, hlen⟩ := base64Encode_shape bs
  intro c hc
  rw [henc] at hc
  rcases List.mem_append.mp hc with h1 | h2
  · exact Or.inl (ht c h1)
  · exact Or.inr (List.eq_of_mem_replicate h2)

theorem base64Encode_no_dot (bs : List Nat) : ∀ c ∈ base64Encode bs, c ≠ '.' := by
  intro c hc
  rcases base64Encode_mem bs c hc with h | rfl
  · exact (alpha_clean c h).2.1
  · decide

theorem atob_base64Encode (bs : List Nat) (hb : ∀ x ∈ bs, x < 256) :
    atobDecode (base64Encode bs) = some bs := by
  obtain ⟨t, k, henc, hk, ht, hlen⟩ := base64Encode_shape bs
  have htne : ∀ c ∈ t, c ≠ '=' := fun c hc => (alpha_clean c (ht c hc)).1
  have hfil : (base64Encode bs).filter (fun c => c ≠ '=') = t := by
    rw [henc, List.filter_append]
    have h1 : t.filter (fun c => decide (c ≠ '=')) = t :=
      List.filter_eq_self.mpr (fun a ha => by simpa using htne a ha)
    have h2 : (List.replicate k '=').filter (fun c => decide (c ≠ '=')) = [] :=
      List.filter_eq_nil_iff.mpr (fun a ha => by
        simp [List.eq_of_mem_replicate ha])
    rw [h1, h2, List.append_nil]
  have hlen4 : (base64Encode bs).length % 4 = 0 := by
    rw [henc]
    simp only [List.length_append, List.length_replicate]
    omega
  unfold atobDecode
  rw [if_pos hlen4, henc, dropTrailEq2_pad t k hk htne, ← hfil]
  exact decode4_encode_filter bs hb

theorem atob_encodeNoPad (bs : List Nat) (hb : ∀ x ∈ bs, x < 256) :
    atobDecode ((base64Encode bs).filter (fun c => c ≠ '=')) = some bs := by
  have hne : ∀ c ∈ (base64Encode bs).filter (fun c => c ≠ '='), c ≠ '=' :=
    fun c hc => by simpa using List.of_mem_filter hc
  unfold atobDecode
  split
  · rw [dropTrailEq2_no_eq _ hne]
    exact decode4_encode_filter bs hb
  · exact decode4_encode_filter bs hb

theorem alpha_url_ok : ∀ c ∈ b64AlphaChars,
    fromUrlChar (toUrlChar c) = c ∧ toUrlChar c ≠ '=' ∧ toUrlChar c ≠ '+' ∧
    toUrlChar c ≠ '/' ∧ toUrlChar c ≠ '.' := by decide

theorem fromUrl_toUrl (s : List Char) (hs : ∀ c ∈ s, c ∈ b64AlphaChars ∨ c = '=') :
    fromUrl (toUrl s) = s.filter (fun c => c ≠ '=') := by
  induction s with
  | nil => rfl
  | cons c cs ih =>
    have ih' := ih (fun x hx => hs x (List.mem_cons_of_mem _ hx))
    rcases hs c (by simp) with hc | rfl
    · have hprops := alpha_url_ok c hc
      have hcne : c ≠ '=' := (alpha_clean c hc).1
      simp only [toUrl, fromUrl, List.map_cons, List.filter_cons] at ih' ⊢
      rw [if_pos (by simpa using hprops.2.1)]
      simp only [List.map_cons]
      rw [hprops.1]
      rw [if_pos (by simpa using hcne)]
      exact congrArg (c :: ·) ih'
    · simp only [toUrl, fromUrl, List.map_cons, List.filter_cons] at ih' ⊢
      rw [if_neg (by simp [toUrlChar]), if_neg (by simp)]
      exact ih'

theorem toUrl_encode_clean (bs : List Nat) :
    ∀ c ∈ toUrl (base64Encode bs), c ≠ '+' ∧ c ≠ '/' ∧ c ≠ '=' ∧ c ≠ '.' := by
  intro c hc
  unfold toUrl at hc
  have h1 := List.mem_filter.mp hc
  have hne : c ≠ '=' := by simpa using h1.2
  obtain ⟨c0, hc0, rfl⟩ := List.mem_map.mp h1.1
  rcases base64Encode_mem bs c0 hc0 with ha | rfl
  · have := alpha_url_ok c0 ha
    exact ⟨this.2.2.1, this.2.2.2.1, hne, this.2.2.2.2⟩
  · exact absurd (by decide) hne

theorem splitOnDot_no_dot (a : List Char) (ha : ∀ c ∈ a, c ≠ '.') :
    splitOnDot a = [a] := by
  induction a with
  | nil => rfl
  | cons c cs ih =>
    have hc : c ≠ '.' := ha c (by simp)
    have ih' := ih (fun x hx => ha x (List.mem_cons_of_mem _ hx))
    simp [splitOnDot, hc, ih']

theorem splitOnDot_append (a t : List Char) (ha : ∀ c ∈ a, c ≠ '.') :
    splitOnDot (a ++ '.' :: t) = a :: splitOnDot t := by
  induction a with
  | nil => simp [splitOnDot]
  | cons c cs ih =>
    have hc : c ≠ '.' := ha c (by simp)
    have ih' := ih (fun x hx => ha x (List.mem_cons_of_mem _ hx))
    simp [splitOnDot, hc, ih']

theorem jsonEscape_eq_self (s : List Char) (hs : ∀ c ∈ s, c ≠ '"' ∧ c ≠ '\\') :
    jsonEscape s = s := by
  induction s with
  | nil => rfl
  | cons c cs ih =>
    have hc := hs c (by simp)
    have ih' := ih (fun x hx => hs x (List.mem_cons_of_mem _ hx))
    simp [jsonEscape, jsonEscapeChar, hc.1, hc.2] at ih' ⊢
    simpa [jsonEscape] using ih'

theorem parseLit_nil (s : List Char) : parseLit [] s = some s := rfl

theorem parseLit_cons (c : Char) (cs s : List Char) :
    parseLit (c :: cs) (c :: s) = parseLit cs s := by
  simp [parseLit]

theorem parseStringChars_append (s : List Char)
    (hs : ∀ c ∈ s, c ≠ '"' ∧ c ≠ '\\') (r : List Char) :
    parseStringChars (s ++ '"' :: r) = some (s, r) := by
  induction s with
  | nil => rw [List.nil_append, parseStringChars.eq_def]; simp
  | cons c cs ih =>
    have hc := hs c (by simp)
    have ih' := ih (fun x hx => hs x (List.mem_cons_of_mem _ hx))
    rw [List.cons_append, parseStringChars.eq_def]
    simp [hc.1, hc.2, ih']

theorem natToChars_ne_nil (n : Nat) : natToChars n ≠ [] := by
  unfold natToChars
  split <;> simp

theorem natToChars_digits (n : Nat) : ∀ c ∈ natToChars n, isDigitCh c = true := by
  induction n using natToChars.induct with
  | case1 n h =>
    intro c hc
    unfold natToChars at hc
    rw [if_pos h] at hc
    simp only [List.mem_singleton] at hc
    subst hc
    simp only [isDigitCh, char_toNat_ofNat (48 + n) (by omega)]
    simp
    omega
  | case2 n h ih =>
    intro c hc
    unfold natToChars at hc
    rw [if_neg h] at hc
    rcases List.mem_append.mp hc with h1 | h2
    · exact ih c h1
    · simp only [List.mem_singleton] at h2
      subst h2
      simp only [isDigitCh, char_toNat_ofNat (48 + n % 10) (by omega)]
      simp
      omega

theorem parseNatAux_nondigit (acc : Nat) (c : Char) (r : List Char)
    (hc : isDigitCh c = false) : parseNatAux acc (c :: r) = (acc, c :: r) := by
  simp [parseNatAux, hc]

theorem parseNatAux_append (n : Nat) : ∀ (r : List Char) (acc : Nat),
    parseNatAux acc (natToChars n ++ r) =
      parseNatAux (acc * 10 ^ (natToChars n).length + n) r := by
  induction n using natToChars.induct with
  | case1 n h =>
    intro r acc
    unfold natToChars
    rw [if_pos h]
    have hd : isDigitCh (Char.ofNat (48 + n)) = true := by
      simp only [isDigitCh, char_toNat_ofNat (48 + n) (by omega)]
      simp
      omega
    simp only [List.singleton_append, parseNatAux, hd, if_pos,
      char_toNat_ofNat (48 + n) (by omega), List.length_singleton]
    congr 1
    omega
  | case2 n h ih =>
    intro r acc
    unfold natToChars
    rw [if_neg h]
    have hd : isDigitCh (Char.ofNat (48 + n % 10)) = true := by
      simp only [isDigitCh, char_toNat_ofNat (48 + n % 10) (by omega)]
      simp
      omega
    rw [List.append_assoc, List.singleton_append, ih]
    simp only [parseNatAux, hd, if_pos, char_toNat_ofNat (48 + n % 10) (by omega)]
    rw [List.length_append, List.length_singleton]
    congr 1
    have hdm := Nat.div_add_mod n 10
    have : 10 ^ ((natToChars (n / 10)).length + 1) = 10 ^ (natToChars (n / 10)).length * 10 :=
      pow_succ 10 _
    set P := 10 ^ (natToChars (n / 10)).length
    rw [this]
    ring_nf
    omega

theorem parseNatChars_append_nd (n : Nat) (c : Char) (hc : isDigitCh c = false)
    (r : List Char) : parseNatChars (natToChars n ++ c :: r) = some (n, c :: r) := by
  cases hnt : natToChars n with
  | nil => exact absurd hnt (natToChars_ne_nil n)
  | cons d ds =>
    have hd : isDigitCh d = true := natToChars_digits n d (by rw [hnt]; simp)
    rw [List.cons_append, parseNatChars.eq_def]
    simp only [hd, if_pos]
    rw [← List.cons_append, ← hnt, parseNatAux_append n (c :: r) 0]
    rw [parseNatAux_nondigit _ c r hc]
    simp

theorem flit1 : "\x7b\"sub\":\"".toList =
    ['\x7b', '"', 's', 'u', 'b', '"', ':', '"'] := by decide

theorem flit2 : "\",\"plan\":\"".toList =
    ['"', ',', '"', 'p', 'l', 'a', 'n', '"', ':', '"'] := by decide

theorem flit2b : ",\"plan\":\"".toList =
    [',', '"', 'p', 'l', 'a', 'n', '"', ':', '"'] := by decide

theorem flit3 : "\",\"iat\":".toList = ['"', ',', '"', 'i', 'a', 't', '"', ':'] := by decide

theorem flit3b : ",\"iat\":".toList = [',', '"', 'i', 'a', 't', '"', ':'] := by decide

theorem flit4 : ",\"exp\":".toList = [',', '"', 'e', 'x', 'p', '"', ':'] := by decide

theorem flit5 : "\x7d".toList = ['\x7d'] := by decide

theorem string_mk_toList (s : String) : String.mk s.toList = s := rfl

theorem jsonParse_stringify (p : JWTPayload)
    (hsub : ∀ c ∈ p.sub.data, c ≠ '"' ∧ c ≠ '\\')
    (hplan : ∀ c ∈ p.plan.data, c ≠ '"' ∧ c ≠ '\\') :
    jsonParsePayload (jsonStringifyPayload p) = some p := by
  have e1 : jsonEscape p.sub.data = p.sub.data := jsonEscape_eq_self _ hsub
  have e2 : jsonEscape p.plan.data = p.plan.data := jsonEscape_eq_self _ hplan
  simp only [jsonParsePayload, jsonStringifyPayload, String.toList, e1, e2, flit1, flit2,
    flit2b, flit3, flit3b, flit4, flit5, List.cons_append, List.append_assoc,
    List.nil_append, parseLit_cons, parseLit_nil, Option.pure_def, Option.bind_eq_bind,
    Option.some_bind,
    parseStringChars_append _ hsub, parseStringChars_append _ hplan,
    parseNatChars_append_nd _ ',' (by decide), parseNatChars_append_nd _ '\x7d' (by decide)]
  simp [string_mk_toList]

theorem jsonEscape_lt256 (s : List Char) (h : ∀ c ∈ s, c.toNat < 256) :
    ∀ c ∈ jsonEscape s, c.toNat < 256 := by
  induction s with
  | nil => simp [jsonEscape]
  | cons c cs ih =>
    intro x hx
    have ih' := ih (fun y hy => h y (List.mem_cons_of_mem _ hy))
    have hc := h c (by simp)
    simp only [jsonEscape, List.map_cons, List.flatten_cons] at hx
    rcases List.mem_append.mp hx with h1 | h2
    · unfold jsonEscapeChar at h1
      split at h1
      · rcases (by simpa using h1 : x = '\\' ∨ x = '"') with rfl | rfl <;> decide
      · split at h1
        · rcases (by simpa using h1 : x = '\\' ∨ x = '\\') with rfl | rfl <;> decide
        · have : x = c := by simpa using h1
          subst this
          exact hc
    · exact ih' x (by simpa [jsonEscape] using h2)

theorem isDigitCh_lt256 (c : Char) (h : isDigitCh c = true) : c.toNat < 256 := by
  simp only [isDigitCh] at h
  simp at h
  omega

theorem jsonStringify_lt256 (p : JWTPayload)
    (hsub : ∀ c ∈ p.sub.data, c.toNat < 256)
    (hplan : ∀ c ∈ p.plan.data, c.toNat < 256) :
    ∀ c ∈ jsonStringifyPayload p, c.toNat < 256 := by
  intro c hc
  unfold jsonStringifyPayload at hc
  simp only [List.append_assoc, List.mem_append, String.toList] at hc
  rcases hc with h | h | h | h | h | h | h | h | h
  · revert h; revert c; decide
  · exact jsonEscape_lt256 _ hsub c h
  · revert h; revert c; decide
  · exact jsonEscape_lt256 _ hplan c h
  · revert h; revert c; decide
  · exact isDigitCh_lt256 c (natToChars_digits _ c h)
  · revert h; revert c; decide
  · exact isDigitCh_lt256 c (natToChars_digits _ c h)
  · revert h; revert c; decide

theorem bytesToChars_charCodes (s : List Char) :
    bytesToChars (charCodes s) = s := by
  simp only [bytesToChars, charCodes, List.map_map]
  have : ∀ c ∈ s, (Char.ofNat ∘ Char.toNat) c = id c := by
    intro c _
    simp [Function.comp, Char.ofNat_toNat]
  rw [List.map_congr_left this, List.map_id]

theorem utils_verify_roundtrip (hmac : List Nat → List Nat → List Nat)
    (p : JWTPayload) (secret : List Char)
    (hhm : ∀ k m, ∀ x ∈ hmac k m, x < 256)
    (hsub : ∀ c ∈ p.sub.data, c ≠ '"' ∧ c ≠ '\\' ∧ c.toNat < 256)
    (hplan : ∀ c ∈ p.plan.data, c ≠ '"' ∧ c ≠ '\\' ∧ c.toNat < 256) :
    utils_verifyJWT hmac (generateJWT hmac p secret) secret = some p := by
  have hsub1 : ∀ c ∈ p.sub.data, c ≠ '"' ∧ c ≠ '\\' :=
    fun c hc => ⟨(hsub c hc).1, (hsub c hc).2.1⟩
  have hsub2 : ∀ c ∈ p.sub.data, c.toNat < 256 := fun c hc => (hsub c hc).2.2
  have hplan1 : ∀ c ∈ p.plan.data, c ≠ '"' ∧ c ≠ '\\' :=
    fun c hc => ⟨(hplan c hc).1, (hplan c hc).2.1⟩
  have hplan2 : ∀ c ∈ p.plan.data, c.toNat < 256 := fun c hc => (hplan c hc).2.2
  have hbodyBytes : ∀ x ∈ charCodes (jsonStringifyPayload p), x < 256 := by
    intro x hx
    obtain ⟨c, hc, rfl⟩ := List.mem_map.mp hx
    exact jsonStringify_lt256 p hsub2 hplan2 c hc
  set H := base64Encode (charCodes headerJson) with hHdef
  set B := base64Encode (charCodes (jsonStringifyPayload p)) with hBdef
  set sg := hmac (utf8Bytes secret) (utf8Bytes (H ++ '.' :: B)) with hsgdef
  set S := toUrl (base64Encode sg) with hSdef
  have htok : generateJWT hmac p secret = H ++ '.' :: (B ++ '.' :: S) := by
    simp only [generateJWT, ← hHdef, ← hBdef, ← hsgdef, ← hSdef]
    rw [List.append_assoc, List.cons_append]
  have hsplit : splitOnDot (generateJWT hmac p secret) = [H, B, S] := by
    rw [htok]
    rw [splitOnDot_append H _ (base64Encode_no_dot _),
      splitOnDot_append B _ (base64Encode_no_dot _),
      splitOnDot_no_dot S (fun c hc => (toUrl_encode_clean sg c hc).2.2.2)]
  have hS2 : atobDecode (fromUrl S) = some sg := by
    rw [hSdef, fromUrl_toUrl _ (base64Encode_mem sg)]
    exact atob_encodeNoPad sg (hhm _ _)
  have hB2 : atobDecode B = some (charCodes (jsonStringifyPayload p)) :=
    atob_base64Encode _ hbodyBytes
  rw [utils_verifyJWT, hsplit]
  simp only [hS2, hB2, if_pos rfl, bytesToChars_charCodes]
  exact jsonParse_stringify p hsub1 hplan1

theorem alpha_fromUrl_id : ∀ c ∈ b64AlphaChars, fromUrlChar c = c := by decide

theorem fromUrl_encode_id (bs : List Nat) : fromUrl (base64Encode bs) = base64Encode bs := by
  unfold fromUrl
  rw [List.map_congr_left, List.map_id]
  intro c hc
  rcases base64Encode_mem bs c hc with h | rfl
  · exact alpha_fromUrl_id c h
  · decide

theorem header_is_fixed : base64Encode (charCodes headerJson) = FIXED_HEADER := by decide

theorem auth_verify_expired (hmac : List Nat → List Nat → List Nat)
    (p : JWTPayload) (secret : List Char) (now : Nat)
    (hhm : ∀ k m, ∀ x ∈ hmac k m, x < 256)
    (hsub : ∀ c ∈ p.sub.data, c ≠ '"' ∧ c ≠ '\\' ∧ c.toNat < 256)
    (hplan : ∀ c ∈ p.plan.data, c ≠ '"' ∧ c ≠ '\\' ∧ c.toNat < 256)
    (hexp : p.exp < now) :
    auth_verifyJWT hmac (generateJWT hmac p secret) secret now = none := by
  have hsub1 : ∀ c ∈ p.sub.data, c ≠ '"' ∧ c ≠ '\\' :=
    fun c hc => ⟨(hsub c hc).1, (hsub c hc).2.1⟩
  have hsub2 : ∀ c ∈ p.sub.data, c.toNat < 256 := fun c hc => (hsub c hc).2.2
  have hplan1 : ∀ c ∈ p.plan.data, c ≠ '"' ∧ c ≠ '\\' :=
    fun c hc => ⟨(hplan c hc).1, (hplan c hc).2.1⟩
  have hplan2 : ∀ c ∈ p.plan.data, c.toNat < 256 := fun c hc => (hplan c hc).2.2
  have hbodyBytes : ∀ x ∈ charCodes (jsonStringifyPayload p), x < 256 := by
    intro x hx
    obtain ⟨c, hc, rfl⟩ := List.mem_map.mp hx
    exact jsonStringify_lt256 p hsub2 hplan2 c hc
  set H := base64Encode (charCodes headerJson) with hHdef
  set B := base64Encode (charCodes (jsonStringifyPayload p)) with hBdef
  set sg := hmac (utf8Bytes secret) (utf8Bytes (H ++ '.' :: B)) with hsgdef
  set S := toUrl (base64Encode sg) with hSdef
  have htok : generateJWT hmac p secret = H ++ '.' :: (B ++ '.' :: S) := by
    simp only [generateJWT, ← hHdef, ← hBdef, ← hsgdef, ← hSdef]
    rw [List.append_assoc, List.cons_append]
  have hsplit : splitOnDot (generateJWT hmac p secret) = [H, B, S] := by
    rw [htok]
    rw [splitOnDot_append H _ (base64Encode_no_dot _),
      splitOnDot_append B _ (base64Encode_no_dot _),
      splitOnDot_no_dot S (fun c hc => (toUrl_encode_clean sg c hc).2.2.2)]
  have hS2 : atobDecode (fromUrl S) = some sg := by
    rw [hSdef, fromUrl_toUrl _ (base64Encode_mem sg)]
    exact atob_encodeNoPad sg (hhm _ _)
  have hB2 : atobDecode (fromUrl B) = some (charCodes (jsonStringifyPayload p)) := by
    rw [hBdef, fromUrl_encode_id]
    exact atob_base64Encode _ hbodyBytes
  have hHfix : H = FIXED_HEADER := by rw [hHdef]; exact header_is_fixed
  have hle : p.exp ≤ now := Nat.le_of_lt hexp
  rw [auth_verifyJWT, hsplit]
  simp [hS2, hB2, bytesToChars_charCodes, hHfix, jsonParse_stringify p hsub1 hplan1, hle]

/-- C8: of the two credential verifiers, verifyJWT in utils.ts accepts
any validly signed token and returns its decoded payload even when the
payload's exp lies before the current time (only the signature is
checked), while verifyJWT in auth.ts (jose jwtVerify, modelled from the
spec) returns null for that same expired token, checking signature and
exp both. -/
theorem jwt_exp_check_asymmetry (hmac : List Nat → List Nat → List Nat)
    (p : JWTPayload) (secret : List Char) (now : Nat)
    (hhm : ∀ k m, ∀ x ∈ hmac k m, x < 256)
    (hsub : ∀ c ∈ p.sub.data, c ≠ '"' ∧ c ≠ '\\' ∧ c.toNat < 256)
    (hplan : ∀ c ∈ p.plan.data, c ≠ '"' ∧ c ≠ '\\' ∧ c.toNat < 256)
    (hexp : p.exp < now) :
    utils_verifyJWT hmac (generateJWT hmac p secret) secret = some p ∧
    auth_verifyJWT hmac (generateJWT hmac p secret) secret now = none :=
  ⟨utils_verify_roundtrip hmac p secret hhm hsub hplan,
   auth_verify_expired hmac p secret now hhm hsub hplan hexp⟩

/-- C8 witness: a concrete expired token (exp 10, now 11): the utils
verifier returns the payload, the auth verifier rejects it. -/
theorem jwt_exp_check_asymmetry_witness :
    (∀ k m, ∀ x ∈ exHmacBytes k m, x < 256) ∧
    (∀ c ∈ exPayload.sub.data, c ≠ '"' ∧ c ≠ '\\' ∧ c.toNat < 256) ∧
    (∀ c ∈ exPayload.plan.data, c ≠ '"' ∧ c ≠ '\\' ∧ c.toNat < 256) ∧
    exPayload.exp < 11 ∧
    (utils_verifyJWT exHmacBytes (generateJWT exHmacBytes exPayload "sec".toList)
        "sec".toList = some exPayload ∧
    auth_verifyJWT exHmacBytes (generateJWT exHmacBytes exPayload "sec".toList)
        "sec".toList 11 = none) :=
  ⟨fun _ _ x hx => by simp [exHmacBytes] at hx; omega, by decide, by decide, by decide,
   jwt_exp_check_asymmetry exHmacBytes exPayload "sec".toList 11
     (fun _ _ x hx => by simp [exHmacBytes] at hx; omega) (by decide) (by decide) (by decide)⟩

theorem natToChars_zero : natToChars 0 = ['0'] := by
  rw [natToChars]
  norm_num

/-- C9 counterexample: for the payload exPayloadPad the minted
credential's middle (payload) segment contains '=': btoa keeps its
padding there, so not every segment is base64url without padding. -/
theorem jwt_payload_padding :
    (splitOnDot (generateJWT exHmacBytes exPayloadPad "sec".toList)).length = 3 ∧
    '=' ∈ (splitOnDot (generateJWT exHmacBytes exPayloadPad "sec".toList)).getD 1 [] := by
  have hjson : jsonStringifyPayload exPayloadPad =
      "\x7b\"sub\":\"A\",\"plan\":\"a\",\"iat\":0,\"exp\":0\x7d".toList := by
    simp only [jsonStringifyPayload, exPayloadPad, natToChars_zero]
    decide
  constructor
  · simp only [generateJWT, hjson]
    decide
  · simp only [generateJWT, hjson]
    decide

/-- C9 (amended): the minted credential is exactly three dot-separated
segments: the fixed base64 header (which happens to contain no '+', '/'
or '='), the payload as standard base64 — possibly with '+', '/' or '='
padding — and the HMAC-SHA256 signature over header.payload, base64url
encoded without padding (never '+', '/', '=' or '.'). -/
theorem jwt_segment_format (hmac : List Nat → List Nat → List Nat)
    (p : JWTPayload) (secret : List Char) :
    splitOnDot (generateJWT hmac p secret) =
      [base64Encode (charCodes headerJson),
       base64Encode (charCodes (jsonStringifyPayload p)),
       toUrl (base64Encode (hmac (utf8Bytes secret)
         (utf8Bytes (base64Encode (charCodes headerJson) ++ '.' ::
           base64Encode (charCodes (jsonStringifyPayload p))))))] ∧
    base64Encode (charCodes headerJson) = FIXED_HEADER ∧
    (∀ c ∈ toUrl (base64Encode (hmac (utf8Bytes secret)
         (utf8Bytes (base64Encode (charCodes headerJson) ++ '.' ::
           base64Encode (charCodes (jsonStringifyPayload p)))))),
       c ≠ '+' ∧ c ≠ '/' ∧ c ≠ '=' ∧ c ≠ '.') ∧
    (∀ c ∈ base64Encode (charCodes (jsonStringifyPayload p)),
       c ∈ b64AlphaChars ∨ c = '=') := by
  refine ⟨?_, header_is_fixed, toUrl_encode_clean _, base64Encode_mem _⟩
  have htok : generateJWT hmac p secret =
      base64Encode (charCodes headerJson) ++ '.' ::
        (base64Encode (charCodes (jsonStringifyPayload p)) ++ '.' ::
          toUrl (base64Encode (hmac (utf8Bytes secret)
            (utf8Bytes (base64Encode (charCodes headerJson) ++ '.' ::
              base64Encode (charCodes (jsonStringifyPayload p))))))) := by
    simp only [generateJWT]
    rw [List.append_assoc, List.cons_append]
  rw [htok]
  rw [splitOnDot_append _ _ (base64Encode_no_dot _),
    splitOnDot_append _ _ (base64Encode_no_dot _),
    splitOnDot_no_dot _ (fun c hc => (toUrl_encode_clean _ c hc).2.2.2)]
